import Mathlib

/-!
Verification development for the NeoPatterns LED-animation library
(NeoPatterns.h).  The C++ code is shallowly embedded: machine integers
are modelled as Nat with explicit reduction modulo the width of the
corresponding C type (uint16_t for TotalSteps and Index, 32-bit
unsigned long for millis_t timestamps and color_t packed colors), and
the int8_t Direction field is modelled as Int (every call site uses
only +1 or -1).  The Adafruit_NeoPixel base class is an external
collaborator; its capability surface (pixel buffer, transmit, clear,
packed-color constructor) is modelled from the spec.
-/

/-- Modulus of the 16-bit unsigned C type uint16_t (TotalSteps, Index). -/
def UINT16_MOD : Nat := 65536

/-- Modulus of the 32-bit unsigned C types millis_t and color_t. -/
def UINT32_MOD : Nat := 4294967296

/-- State of the abstract NeoPattern base class: timing state
(Interval, LastUpdate), the two reference colors, and stepping state
(TotalSteps, Index, Direction).  Index and TotalSteps are uint16_t
values, Interval and LastUpdate are millis_t values, Direction is an
int8_t holding +1 (FORWARD) or -1 (REVERSE) at every call site. -/
structure NeoPatternState where
  Interval : Nat
  LastUpdate : Nat
  Color1 : Nat
  Color2 : Nat
  TotalSteps : Nat
  Index : Nat
  Direction : Int
  deriving Repr, DecidableEq

namespace NeoPattern

/-- NeoPattern::Reset - sets Index = LastUpdate = 0. -/
def Reset (s : NeoPatternState) : NeoPatternState :=
  { s with Index := 0, LastUpdate := 0 }

/-- NeoPattern::NeoPattern - the base-class constructor: stores the
parameters (reduced modulo the width of their C types) and calls
Reset.  No validation is performed on any argument. -/
def construct (interval color1 color2 totalSteps : Nat) (dir : Int) : NeoPatternState :=
  Reset { Interval := interval % UINT32_MOD, LastUpdate := 0,
          Color1 := color1 % UINT32_MOD, Color2 := color2 % UINT32_MOD,
          TotalSteps := totalSteps % UINT16_MOD, Index := 0, Direction := dir }

/-- NeoPattern::ShouldUpdate - true iff millis() - LastUpdate > Interval,
where the subtraction is unsigned 32-bit (wrapping) subtraction.  A
const member function: it is a pure query of the state and the clock. -/
def ShouldUpdate (now : Nat) (s : NeoPatternState) : Bool :=
  decide ((now % UINT32_MOD + UINT32_MOD - s.LastUpdate % UINT32_MOD) % UINT32_MOD > s.Interval)

/-- First half of NeoPattern::AfterUpdate - records LastUpdate = millis(). -/
def MarkUpdated (now : Nat) (s : NeoPatternState) : NeoPatternState :=
  { s with LastUpdate := now % UINT32_MOD }

/-- NeoPattern::Increment - adds Direction to the uint16_t Index
(wrapping modulo 2^16), then: if Index >= TotalSteps, Index is set to 0
and OnComplete() is invoked; else if Index <= 0 (for the unsigned Index
this means Index == 0), Index is set to TotalSteps - 1 and OnComplete()
is invoked.  The returned Bool records whether OnComplete() was
invoked (the base-class hook is a no-op; derived classes may override). -/
def Increment (s : NeoPatternState) : NeoPatternState × Bool :=
  let idx : Nat := (((s.Index : Int) + s.Direction) % (UINT16_MOD : Int)).toNat
  if s.TotalSteps ≤ idx then
    ({ s with Index := 0 }, true)
  else if idx ≤ 0 then
    ({ s with Index := s.TotalSteps - 1 }, true)
  else
    ({ s with Index := idx }, false)

/-- NeoPattern::AfterUpdate - LastUpdate = millis(), then Increment(). -/
def AfterUpdate (now : Nat) (s : NeoPatternState) : NeoPatternState × Bool :=
  Increment (MarkUpdated now s)

/-- NeoPattern::Reverse - multiplies Direction by -1, then repositions
Index to 0 if the new direction is FORWARD (+1) and otherwise to the
uint16_t value TotalSteps - 1 (computed with wrapping subtraction). -/
def Reverse (s : NeoPatternState) : NeoPatternState :=
  let d : Int := s.Direction * -1
  { s with Direction := d,
           Index := if d = 1 then 0 else (s.TotalSteps + (UINT16_MOD - 1)) % UINT16_MOD }

/-- Iterates Increment n times, counting how often OnComplete() fired. -/
def advanceN (s : NeoPatternState) : Nat → NeoPatternState × Nat
  | 0 => (s, 0)
  | n + 1 =>
    let r := advanceN s n
    let r2 := Increment r.1
    (r2.1, r.2 + if r2.2 then 1 else 0)

end NeoPattern

/-- State of the NeoPatterns controller (derived from Adafruit_NeoPixel).
The pixel buffer and the transmission log model the collaborator driver
from the spec: Buffer is the ordered sequence of packed colors and
Shown records every buffer handed to the hardware, most recent first.
ActivePattern is the raw pointer to the running pattern; it is kept
generic in P so the same structure serves the pointer-identity view
(P = an address) and the dynamic view (P = NeoPatternState). -/
structure NeoPatternsState (P : Type) where
  NumPixels : Nat
  Buffer : List Nat
  Shown : List (List Nat)
  ActivePattern : Option P
  deriving DecidableEq

namespace NeoPatterns

/-- NeoPatterns::NeoPatterns - the controller constructor: stores the
pixel count (a uint16_t), starts with ActivePattern = NULL.  Modelled
from the spec: the driver base class provides a zero-initialised pixel
buffer of NumPixels packed colors and an empty transmission history. -/
def construct (P : Type) (pixels : Nat) : NeoPatternsState P :=
  { NumPixels := pixels % UINT16_MOD,
    Buffer := List.replicate (pixels % UINT16_MOD) 0,
    Shown := [],
    ActivePattern := none }

/-- NeoPatterns::IsActive() - true iff ActivePattern != NULL. -/
def IsActive (c : NeoPatternsState P) : Bool :=
  c.ActivePattern.isSome

/-- NeoPatterns::IsActive(pattern) - raw identity comparison
ActivePattern == pattern, with no null check; the argument pointer may
itself be NULL (modelled as none). -/
def IsActivePat [DecidableEq P] (c : NeoPatternsState P) (pattern : Option P) : Bool :=
  decide (c.ActivePattern = pattern)

/-- Modelled from the spec: the pixel-buffer driver capability
transmit / show() - pushes the current buffer to the hardware, here
recorded at the head of the transmission log. -/
def transmit (c : NeoPatternsState P) : NeoPatternsState P :=
  { c with Shown := c.Buffer :: c.Shown }

/-- Modelled from the spec: the driver capability setPixel /
setPixelColor(i, color) - writes the packed color into slot i of the
buffer; an out-of-range index is ignored (List.set has the same
behavior). -/
def setPixel (i : Nat) (color : Nat) (c : NeoPatternsState P) : NeoPatternsState P :=
  { c with Buffer := c.Buffer.set i (color % UINT32_MOD) }

/-- NeoPatterns::Start - attaches the pattern as active and resets it. -/
def Start (p : NeoPatternState) (c : NeoPatternsState NeoPatternState) :
    NeoPatternsState NeoPatternState :=
  { c with ActivePattern := some (NeoPattern.Reset p) }

/-- NeoPatterns::Stop - detaches the active pattern (NULL), clears every
pixel to 0 (the driver capability clear, modelled from the spec) and
transmits the cleared buffer immediately. -/
def Stop (c : NeoPatternsState P) : NeoPatternsState P :=
  transmit { c with ActivePattern := none, Buffer := List.replicate c.NumPixels 0 }

/-- NeoPatterns::ColorSet - writes the color into every buffer slot,
then transmits immediately. -/
def ColorSet (color : Nat) (c : NeoPatternsState P) : NeoPatternsState P :=
  transmit { c with Buffer := List.replicate c.NumPixels (color % UINT32_MOD) }

/-- NeoPatterns::Update - if a pattern is attached and its
ShouldUpdate() is true: the pattern's virtual Update() (the frame
computation, passed here as the function frame), then show(), then
AfterUpdate() (LastUpdate = millis(); Increment()).  Otherwise nothing
happens.  The returned Bool records whether OnComplete() fired. -/
def Update (frame : NeoPatternState → NeoPatternsState NeoPatternState → NeoPatternsState NeoPatternState)
    (now : Nat) (c : NeoPatternsState NeoPatternState) :
    NeoPatternsState NeoPatternState × Bool :=
  match c.ActivePattern with
  | none => (c, false)
  | some p =>
    if NeoPattern.ShouldUpdate now p then
      let c1 := transmit (frame p c)
      let r := NeoPattern.AfterUpdate now p
      ({ c1 with ActivePattern := some r.1 }, r.2)
    else (c, false)

/-- NeoPatterns::Red - bits 23..16 of a packed color. -/
def Red (color : Nat) : Nat := (color / 65536) % 256

/-- NeoPatterns::Green - bits 15..8 of a packed color. -/
def Green (color : Nat) : Nat := (color / 256) % 256

/-- NeoPatterns::Blue - bits 7..0 of a packed color. -/
def Blue (color : Nat) : Nat := color % 256

/-- Modelled from the spec: the driver Color(r, g, b) constructor of a
packed 24-bit 0xRRGGBB color; each argument is a uint8_t, so values are
truncated modulo 256. -/
def Color (r g b : Nat) : Nat := (r % 256) * 65536 + (g % 256) * 256 + (b % 256)

/-- NeoPatterns::DimColor - every channel shifted right by one bit. -/
def DimColor (color : Nat) : Nat :=
  Color (Red color / 2) (Green color / 2) (Blue color / 2)

/-- NeoPatterns::Wheel - the hue wheel.  The byte input is first
reversed (WheelPos = 255 - WheelPos), then mapped through three linear
segments of 85 positions each with slope 3 per position. -/
def Wheel (wheelPos : Nat) : Nat :=
  let w := 255 - wheelPos % 256
  if w < 85 then
    Color (255 - w * 3) 0 (w * 3)
  else if w < 170 then
    Color 0 ((w - 85) * 3) (255 - (w - 85) * 3)
  else
    Color ((w - 170) * 3) (255 - (w - 170) * 3) 0

/-- Folds NeoPatterns::Update over a list of clock readings, counting
how often OnComplete() fired. -/
def runTicks (frame : NeoPatternState → NeoPatternsState NeoPatternState → NeoPatternsState NeoPatternState)
    (times : List Nat) (c : NeoPatternsState NeoPatternState) :
    NeoPatternsState NeoPatternState × Nat :=
  times.foldl (fun acc t =>
    let r := Update frame t acc.1
    (r.1, acc.2 + if r.2 then 1 else 0)) (c, 0)

end NeoPatterns

namespace ColorWipe

/-- ColorWipe::ColorWipe - forwards (interval, color, 0,
pixels.numPixels(), dir) to the base constructor. -/
def construct (numPixels interval color : Nat) (dir : Int) : NeoPatternState :=
  NeoPattern.construct interval color 0 numPixels dir

/-- ColorWipe::Update - sets the single pixel at position Index to
Color1; all other pixels are untouched this frame. -/
def Update (p : NeoPatternState) (c : NeoPatternsState NeoPatternState) :
    NeoPatternsState NeoPatternState :=
  NeoPatterns.setPixel p.Index p.Color1 c

end ColorWipe

namespace Fade

/-- Fade::Fade - forwards all parameters to the base constructor. -/
def construct (interval color1 color2 steps : Nat) (dir : Int) : NeoPatternState :=
  NeoPattern.construct interval color1 color2 steps dir

/-- Fade::Update - linear interpolation between Color1 and Color2: each
channel is (channel1 * (TotalSteps - Index) + channel2 * Index) /
TotalSteps, truncated into the uint8_t channel variable, and the
resulting color is applied to the whole strip with ColorSet.  The C
arithmetic is carried out in (at least 32-bit) int and is non-negative
whenever Index <= TotalSteps, so Nat arithmetic models it there. -/
def Update (p : NeoPatternState) (c : NeoPatternsState NeoPatternState) :
    NeoPatternsState NeoPatternState :=
  let red := (NeoPatterns.Red p.Color1 * (p.TotalSteps - p.Index)
              + NeoPatterns.Red p.Color2 * p.Index) / p.TotalSteps % 256
  let green := (NeoPatterns.Green p.Color1 * (p.TotalSteps - p.Index)
              + NeoPatterns.Green p.Color2 * p.Index) / p.TotalSteps % 256
  let blue := (NeoPatterns.Blue p.Color1 * (p.TotalSteps - p.Index)
              + NeoPatterns.Blue p.Color2 * p.Index) / p.TotalSteps % 256
  NeoPatterns.ColorSet (NeoPatterns.Color red green blue) c

end Fade

/-- The ColorWipe scenario of the spec: an 8-pixel controller with a
started ColorWipe pattern, interval 50, color 0x00FF00. -/
def colorWipeInit : NeoPatternsState NeoPatternState :=
  NeoPatterns.Start (ColorWipe.construct 8 50 65280 1) (NeoPatterns.construct NeoPatternState 8)

/-- Eight clock readings 100, 200, ..., 800: each is more than interval
50 beyond the previous applied update, so every tick is applied. -/
def colorWipeRun : NeoPatternsState NeoPatternState × Nat :=
  NeoPatterns.runTicks ColorWipe.Update [100, 200, 300, 400, 500, 600, 700, 800] colorWipeInit

/-! Helper lemmas about the wrapped index arithmetic. -/

lemma incr_idx_pos (i : Nat) (h : i + 1 < UINT16_MOD) :
    (((i : Int) + 1) % ((UINT16_MOD : Nat) : Int)).toNat = i + 1 := by
  unfold UINT16_MOD at *
  rw [Int.emod_eq_of_lt (by omega) (by push_cast; omega)]
  omega

lemma incr_idx_neg (i : Nat) (h : i < UINT16_MOD) :
    (((i : Int) + -1) % ((UINT16_MOD : Nat) : Int)).toNat =
      if i = 0 then UINT16_MOD - 1 else i - 1 := by
  unfold UINT16_MOD at *
  rcases Nat.eq_zero_or_pos i with h0 | h0
  · subst h0
    decide
  · rw [if_neg (by omega)]
    rw [Int.emod_eq_of_lt (by omega) (by push_cast; omega)]
    omega

lemma mod_step_eq (n T : Nat) (h : n % T + 1 = T) :
    (n + 1) % T = 0 ∧ (n + 1) / T = n / T + 1 := by
  have h0 : 0 < T := by omega
  have hrw : n + 1 = T * (n / T + 1) := by
    conv_lhs => rw [← Nat.div_add_mod n T]
    rw [Nat.mul_succ, Nat.add_assoc]
    congr 1
  constructor
  · rw [hrw, Nat.mul_mod_right]
  · rw [hrw, Nat.mul_div_cancel_left _ h0]

lemma mod_step_lt (n T : Nat) (h0 : 0 < T) (h : n % T + 1 < T) :
    (n + 1) % T = n % T + 1 ∧ (n + 1) / T = n / T := by
  constructor
  · conv_lhs => rw [← Nat.div_add_mod n T]
    rw [Nat.add_assoc, Nat.mul_add_mod]
    exact Nat.mod_eq_of_lt h
  · conv_lhs => rw [← Nat.div_add_mod n T]
    rw [Nat.add_assoc, Nat.mul_add_div h0, Nat.div_eq_of_lt h, Nat.add_zero]

lemma increment_forward_lit (interval lu c1 c2 T i : Nat) (hm : T < UINT16_MOD) (hi : i < T) :
    NeoPattern.Increment ⟨interval, lu, c1, c2, T, i, 1⟩ =
      (if i + 1 = T then ((⟨interval, lu, c1, c2, T, 0, 1⟩ : NeoPatternState), true)
       else ((⟨interval, lu, c1, c2, T, i + 1, 1⟩ : NeoPatternState), false)) := by
  have hidx := incr_idx_pos i (by omega)
  simp only [NeoPattern.Increment, hidx]
  by_cases he : i + 1 = T
  · rw [if_pos (by omega), if_pos he]
  · rw [if_neg (by omega), if_neg (by omega), if_neg he]

lemma increment_reverse_lit (interval lu c1 c2 T i : Nat) (hm : T < UINT16_MOD)
    (h1 : 1 ≤ i) (hi : i < T) :
    NeoPattern.Increment ⟨interval, lu, c1, c2, T, i, -1⟩ =
      (if i = 1 then ((⟨interval, lu, c1, c2, T, T - 1, -1⟩ : NeoPatternState), true)
       else ((⟨interval, lu, c1, c2, T, i - 1, -1⟩ : NeoPatternState), false)) := by
  have hidx := incr_idx_neg i (by omega)
  rw [if_neg (by omega)] at hidx
  simp only [NeoPattern.Increment, hidx]
  by_cases he : i = 1
  · rw [if_neg (by omega), if_pos (by omega), if_pos he]
  · rw [if_neg (by omega), if_neg (by omega), if_neg he]

lemma increment_dir_neg (s : NeoPatternState) (hd : s.Direction = -1)
    (hm : s.TotalSteps < UINT16_MOD) :
    (s.Index = 0 → NeoPattern.Increment s = ({ s with Index := 0 }, true)) ∧
    (s.Index = 1 → 1 ≤ s.TotalSteps →
      NeoPattern.Increment s = ({ s with Index := s.TotalSteps - 1 }, true)) ∧
    (2 ≤ s.Index → s.Index < s.TotalSteps →
      NeoPattern.Increment s = ({ s with Index := s.Index - 1 }, false)) := by
  obtain ⟨iv, lu, a, b, T, i, d⟩ := s
  simp only at hd hm
  subst hd
  refine ⟨?_, ?_, ?_⟩
  · intro h0
    simp only at h0
    subst h0
    have hidx := incr_idx_neg 0 (by omega)
    rw [if_pos rfl] at hidx
    simp only [NeoPattern.Increment, hidx]
    rw [if_pos (by unfold UINT16_MOD at *; omega)]
  · intro h1 hT
    simp only at h1 hT
    subst h1
    have hidx := incr_idx_neg 1 (by omega)
    rw [if_neg (by omega)] at hidx
    simp only [NeoPattern.Increment, hidx]
    rw [if_neg (by omega), if_pos (by omega)]
  · intro h2 hiT
    simp only at h2 hiT
    have hidx := incr_idx_neg i (by omega)
    rw [if_neg (by omega)] at hidx
    simp only [NeoPattern.Increment, hidx]
    rw [if_neg (by omega), if_neg (by omega)]

lemma advanceN_reverse (interval lu c1 c2 T : Nat) (hT : 2 ≤ T) (hm : T < UINT16_MOD) :
    ∀ n : Nat,
      (NeoPattern.advanceN ⟨interval, lu, c1, c2, T, T - 1, -1⟩ n).1 =
        ⟨interval, lu, c1, c2, T, (T - 1) - n % (T - 1), -1⟩ ∧
      (NeoPattern.advanceN ⟨interval, lu, c1, c2, T, T - 1, -1⟩ n).2 = n / (T - 1) := by
  intro n
  induction n with
  | zero =>
    constructor
    · simp [NeoPattern.advanceN]
    · simp [NeoPattern.advanceN]
  | succ n ih =>
    obtain ⟨ih1, ih2⟩ := ih
    have hm1 : 0 < T - 1 := by omega
    have hlt : n % (T - 1) < T - 1 := Nat.mod_lt _ hm1
    have hi1 : 1 ≤ (T - 1) - n % (T - 1) := by omega
    have hiT : (T - 1) - n % (T - 1) < T := by omega
    simp only [NeoPattern.advanceN]
    rw [ih1, ih2, increment_reverse_lit interval lu c1 c2 T _ hm hi1 hiT]
    by_cases hone : (T - 1) - n % (T - 1) = 1
    · have hmod : n % (T - 1) + 1 = T - 1 := by omega
      obtain ⟨hmz, hdz⟩ := mod_step_eq n (T - 1) hmod
      rw [if_pos hone, hmz, hdz]
      exact ⟨by simp, by simp⟩
    · have hmod : n % (T - 1) + 1 < T - 1 := by omega
      obtain ⟨hmz, hdz⟩ := mod_step_lt n (T - 1) hm1 hmod
      rw [if_neg hone, hmz, hdz]
      refine ⟨?_, by simp⟩
      have harith : (T - 1) - n % (T - 1) - 1 = (T - 1) - (n % (T - 1) + 1) := by omega
      simp [harith]

/-- C1 counterexample.  The claim asserts that in reverse direction a
full traversal covers all TotalSteps positions with index 0 a visited
resting position, and that a decrement past 0 (going negative) is
handled by the second branch.  In the code Index is an unsigned 16-bit
value, so for TotalSteps = 3 starting from the reverse boundary Index =
2, the state has period 2: the resting positions are only 2 and 1
(index 0 is never a resting value), and 6 advances fire OnComplete 3
times, where one completion per traversal of all 3 positions would give
at most 2. -/
theorem c1_counterexample :
    (NeoPattern.advanceN ⟨0, 0, 0, 0, 3, 2, -1⟩ 2).1 = ⟨0, 0, 0, 0, 3, 2, -1⟩ ∧
    (NeoPattern.advanceN ⟨0, 0, 0, 0, 3, 2, -1⟩ 1).1.Index = 1 ∧
    (NeoPattern.advanceN ⟨0, 0, 0, 0, 3, 2, -1⟩ 2).1.Index = 2 ∧
    (NeoPattern.advanceN ⟨0, 0, 0, 0, 3, 2, -1⟩ 6).2 = 3 := by
  decide

/-- C1 amended.  advance() adds Direction to the unsigned 16-bit Index
modulo 2 to the 16, then applies the wrap policy of the code: if the new
Index is at least TotalSteps - which includes a reverse step from Index
0, since the decrement wraps to 65535 - Index becomes 0 and OnComplete
fires; else if the new Index is exactly 0, Index becomes TotalSteps - 1
and OnComplete fires; otherwise Index keeps the new value.  Hence in
reverse direction from the boundary TotalSteps - 1 (TotalSteps at least
2), after n advances Index = (TotalSteps - 1) - n % (TotalSteps - 1)
and OnComplete has fired n / (TotalSteps - 1) times: exactly one
completion per traversal of the TotalSteps - 1 positions TotalSteps - 1
down to 1, and index 0 is never a resting position. -/
theorem c1_amended :
    (∀ s : NeoPatternState, s.Direction = -1 → s.TotalSteps < UINT16_MOD →
      (s.Index = 0 → NeoPattern.Increment s = ({ s with Index := 0 }, true)) ∧
      (s.Index = 1 → 1 ≤ s.TotalSteps →
        NeoPattern.Increment s = ({ s with Index := s.TotalSteps - 1 }, true)) ∧
      (2 ≤ s.Index → s.Index < s.TotalSteps →
        NeoPattern.Increment s = ({ s with Index := s.Index - 1 }, false))) ∧
    (∀ interval lu c1 c2 T n : Nat, 2 ≤ T → T < UINT16_MOD →
      (NeoPattern.advanceN ⟨interval, lu, c1, c2, T, T - 1, -1⟩ n).1 =
        ⟨interval, lu, c1, c2, T, (T - 1) - n % (T - 1), -1⟩ ∧
      (NeoPattern.advanceN ⟨interval, lu, c1, c2, T, T - 1, -1⟩ n).2 = n / (T - 1)) :=
  ⟨fun s hd hm => increment_dir_neg s hd hm,
   fun interval lu c1 c2 T n hT hm => advanceN_reverse interval lu c1 c2 T hT hm n⟩

/-- C1 amended, witness: a single reverse step from Index 1 with
TotalSteps 3 wraps to 2 and fires OnComplete; nine reverse advances of a
5-step pattern from Index 4 rest at Index 3 with 2 completions. -/
theorem c1_amended_witness :
    NeoPattern.Increment ⟨0, 0, 0, 0, 3, 1, -1⟩ = (⟨0, 0, 0, 0, 3, 2, -1⟩, true) ∧
    (NeoPattern.advanceN ⟨7, 0, 1, 2, 5, 4, -1⟩ 9).1 = ⟨7, 0, 1, 2, 5, 3, -1⟩ ∧
    (NeoPattern.advanceN ⟨7, 0, 1, 2, 5, 4, -1⟩ 9).2 = 2 := by
  refine ⟨?_, ?_, ?_⟩
  · have h := (c1_amended.1 ⟨0, 0, 0, 0, 3, 1, -1⟩ rfl (by decide)).2.1 rfl (by decide)
    simpa using h
  · have h := (c1_amended.2 7 0 1 2 5 9 (by decide) (by decide)).1
    simpa using h
  · have h := (c1_amended.2 7 0 1 2 5 9 (by decide) (by decide)).2
    simpa using h

/-- C2: starting from Index 0 in forward direction with TotalSteps at
least 1, after n advances the Index equals n mod TotalSteps (the index
visits 0, 1, ..., TotalSteps - 1 cyclically, all other fields
unchanged) and OnComplete has fired exactly n / TotalSteps times,
firing precisely on the advances where the index would have reached
TotalSteps. -/
theorem c2_forward (interval lu c1 c2 T : Nat) (hT : 1 ≤ T) (hm : T < UINT16_MOD) (n : Nat) :
    (NeoPattern.advanceN ⟨interval, lu, c1, c2, T, 0, 1⟩ n).1 =
      ⟨interval, lu, c1, c2, T, n % T, 1⟩ ∧
    (NeoPattern.advanceN ⟨interval, lu, c1, c2, T, 0, 1⟩ n).2 = n / T := by
  induction n with
  | zero =>
    constructor
    · simp [NeoPattern.advanceN]
    · simp [NeoPattern.advanceN]
  | succ n ih =>
    obtain ⟨ih1, ih2⟩ := ih
    have hlt : n % T < T := Nat.mod_lt _ (by omega)
    simp only [NeoPattern.advanceN]
    rw [ih1, ih2, increment_forward_lit interval lu c1 c2 T _ hm hlt]
    by_cases he : n % T + 1 = T
    · obtain ⟨hmz, hdz⟩ := mod_step_eq n T he
      rw [if_pos he, hmz, hdz]
      exact ⟨by simp, by simp⟩
    · have hlt2 : n % T + 1 < T := by omega
      obtain ⟨hmz, hdz⟩ := mod_step_lt n T (by omega) hlt2
      rw [if_neg he, hmz, hdz]
      exact ⟨by simp, by simp⟩

/-- C2 witness: a 3-step pattern advanced 7 times from Index 0 forward
rests at Index 1 with 2 completions. -/
theorem c2_forward_witness :
    (NeoPattern.advanceN ⟨0, 0, 0, 0, 3, 0, 1⟩ 7).1 = ⟨0, 0, 0, 0, 3, 1, 1⟩ ∧
    (NeoPattern.advanceN ⟨0, 0, 0, 0, 3, 0, 1⟩ 7).2 = 2 := by
  have h := c2_forward 0 0 0 0 3 (by decide) (by decide) 7
  exact ⟨by simpa using h.1, by simpa using h.2⟩

/-- C3: the invariant 0 <= Index < TotalSteps holds after construction
and after every Reset, Increment and Reverse (for TotalSteps at least 1
within the uint16_t range), Direction stays in the set of plus and
minus one, and Reverse flips the direction sign and repositions Index
to 0 when the new direction is forward and to TotalSteps - 1 when the
new direction is reverse, with no out-of-range value observable in the
resulting state. -/
theorem c3_invariant :
    (∀ s : NeoPatternState, 1 ≤ s.TotalSteps →
      (NeoPattern.Reset s).Index = 0 ∧ (NeoPattern.Reset s).Index < s.TotalSteps) ∧
    (∀ interval c1 c2 steps : Nat, ∀ d : Int, 1 ≤ steps → steps < UINT16_MOD →
      (NeoPattern.construct interval c1 c2 steps d).Index = 0 ∧
      (NeoPattern.construct interval c1 c2 steps d).TotalSteps = steps ∧
      (NeoPattern.construct interval c1 c2 steps d).Direction = d ∧
      (NeoPattern.construct interval c1 c2 steps d).Index <
        (NeoPattern.construct interval c1 c2 steps d).TotalSteps) ∧
    (∀ s : NeoPatternState, 1 ≤ s.TotalSteps →
      (NeoPattern.Increment s).1.Index < s.TotalSteps ∧
      (NeoPattern.Increment s).1.TotalSteps = s.TotalSteps ∧
      (NeoPattern.Increment s).1.Direction = s.Direction) ∧
    (∀ s : NeoPatternState, 1 ≤ s.TotalSteps → s.TotalSteps < UINT16_MOD →
      (NeoPattern.Reverse s).Direction = -s.Direction ∧
      (s.Direction = -1 → (NeoPattern.Reverse s).Index = 0) ∧
      (s.Direction = 1 → (NeoPattern.Reverse s).Index = s.TotalSteps - 1) ∧
      ((s.Direction = 1 ∨ s.Direction = -1) →
        (NeoPattern.Reverse s).Index < s.TotalSteps)) := by
  refine ⟨?_, ?_, ?_, ?_⟩
  · intro s hT
    exact ⟨rfl, hT⟩
  · intro interval c1 c2 steps d h1 h2
    have hmod : steps % UINT16_MOD = steps := Nat.mod_eq_of_lt h2
    refine ⟨rfl, ?_, rfl, ?_⟩
    · simp [NeoPattern.construct, NeoPattern.Reset, hmod]
    · simp [NeoPattern.construct, NeoPattern.Reset, hmod]
      omega
  · intro s hT
    obtain ⟨iv, lu, a, b, T, i, d⟩ := s
    simp only [NeoPattern.Increment]
    split
    · exact ⟨hT, rfl, rfl⟩
    · split
      · refine ⟨?_, rfl, rfl⟩
        dsimp only
        omega
      · refine ⟨?_, rfl, rfl⟩
        dsimp only
        omega
  · intro s hT hm
    obtain ⟨iv, lu, a, b, T, i, d⟩ := s
    dsimp only at hT hm
    refine ⟨?_, ?_, ?_, ?_⟩
    · simp [NeoPattern.Reverse, mul_neg_one]
    · intro hd
      subst hd
      simp [NeoPattern.Reverse]
    · intro hd
      subst hd
      have hrw : (NeoPattern.Reverse ⟨iv, lu, a, b, T, i, 1⟩).Index =
          (T + (UINT16_MOD - 1)) % UINT16_MOD := by
        simp [NeoPattern.Reverse]
      rw [hrw]
      dsimp only
      unfold UINT16_MOD at *
      omega
    · intro hd
      rcases hd with hd | hd <;> subst hd
      · have hrw : (NeoPattern.Reverse ⟨iv, lu, a, b, T, i, 1⟩).Index =
            (T + (UINT16_MOD - 1)) % UINT16_MOD := by
          simp [NeoPattern.Reverse]
        rw [hrw]
        dsimp only
        unfold UINT16_MOD at *
        omega
      · have hrw : (NeoPattern.Reverse ⟨iv, lu, a, b, T, i, -1⟩).Index = 0 := by
          simp [NeoPattern.Reverse]
        rw [hrw]
        dsimp only
        omega

/-- C3 witness: Reverse at a 5-step forward pattern resting at Index 3
repositions to Index 4 with Direction -1; Increment keeps the index in
range; Reset zeroes it. -/
theorem c3_invariant_witness :
    (NeoPattern.Reverse ⟨0, 0, 0, 0, 5, 3, 1⟩).Index = 4 ∧
    (NeoPattern.Increment ⟨0, 0, 0, 0, 5, 3, 1⟩).1.Index < 5 ∧
    (NeoPattern.Reset ⟨0, 0, 0, 0, 5, 3, 1⟩).Index = 0 := by
  refine ⟨?_, ?_, ?_⟩
  · have h := (c3_invariant.2.2.2 ⟨0, 0, 0, 0, 5, 3, 1⟩ (by decide) (by decide)).2.2.1 rfl
    simpa using h
  · exact (c3_invariant.2.2.1 ⟨0, 0, 0, 0, 5, 3, 1⟩ (by decide)).1
  · exact (c3_invariant.1 ⟨0, 0, 0, 0, 5, 3, 1⟩ (by decide)).1

/-- C4: controller Update is a no-op when no pattern is attached and
when the attached pattern's ShouldUpdate is false; when attached and
ShouldUpdate is true it runs the frame computation on the pre-advance
pattern state, transmits the resulting buffer, then marks the update
time and advances the index - so the transmission at the head of the
log is exactly the frame computed for the pre-advance index. -/
theorem c4_update
    (frame : NeoPatternState → NeoPatternsState NeoPatternState → NeoPatternsState NeoPatternState)
    (now : Nat) (c : NeoPatternsState NeoPatternState) :
    (c.ActivePattern = none → NeoPatterns.Update frame now c = (c, false)) ∧
    (∀ p : NeoPatternState, c.ActivePattern = some p →
      NeoPattern.ShouldUpdate now p = false → NeoPatterns.Update frame now c = (c, false)) ∧
    (∀ p : NeoPatternState, c.ActivePattern = some p →
      NeoPattern.ShouldUpdate now p = true →
      (NeoPatterns.Update frame now c).1.Buffer = (frame p c).Buffer ∧
      (NeoPatterns.Update frame now c).1.Shown = (frame p c).Buffer :: (frame p c).Shown ∧
      (NeoPatterns.Update frame now c).1.NumPixels = (frame p c).NumPixels ∧
      (NeoPatterns.Update frame now c).1.ActivePattern = some (NeoPattern.AfterUpdate now p).1 ∧
      (NeoPatterns.Update frame now c).2 = (NeoPattern.AfterUpdate now p).2) := by
  refine ⟨?_, ?_, ?_⟩
  · intro h
    simp [NeoPatterns.Update, h]
  · intro p hp hs
    simp [NeoPatterns.Update, hp, hs]
  · intro p hp hs
    simp [NeoPatterns.Update, NeoPatterns.transmit, hp, hs]

/-- C4 witness: on a fresh 8-pixel controller Update is a no-op; with
the started ColorWipe pattern Update at time 0 is gated off, and at
time 100 the active pattern becomes the advanced one. -/
theorem c4_update_witness :
    NeoPatterns.Update ColorWipe.Update 100 (NeoPatterns.construct NeoPatternState 8) =
      (NeoPatterns.construct NeoPatternState 8, false) ∧
    NeoPatterns.Update ColorWipe.Update 0 colorWipeInit = (colorWipeInit, false) ∧
    (NeoPatterns.Update ColorWipe.Update 100 colorWipeInit).1.ActivePattern =
      some (NeoPattern.AfterUpdate 100
        (NeoPattern.Reset (ColorWipe.construct 8 50 65280 1))).1 := by
  refine ⟨(c4_update ColorWipe.Update 100 (NeoPatterns.construct NeoPatternState 8)).1 rfl,
    (c4_update ColorWipe.Update 0 colorWipeInit).2.1
      (NeoPattern.Reset (ColorWipe.construct 8 50 65280 1)) rfl (by decide),
    ((c4_update ColorWipe.Update 100 colorWipeInit).2.2
      (NeoPattern.Reset (ColorWipe.construct 8 50 65280 1)) rfl (by decide)).2.2.2.1⟩

/-- C5: ShouldUpdate is true exactly when the elapsed time d since
LastUpdate strictly exceeds Interval (a pure query - the embedding is a
function of the clock and the state); it is false immediately after
MarkUpdated at the same clock reading (elapsed time 0); and with
Interval 0 it is true exactly when at least one millisecond has
elapsed, so every tick of the millisecond clock is eligible. -/
theorem c5_should_update (s : NeoPatternState) (d now : Nat)
    (hl : s.LastUpdate < UINT32_MOD) (hi : s.Interval < UINT32_MOD)
    (hnow : now = s.LastUpdate + d) (hd : d < UINT32_MOD) :
    (NeoPattern.ShouldUpdate now s = true ↔ s.Interval < d) ∧
    NeoPattern.ShouldUpdate now (NeoPattern.MarkUpdated now s) = false ∧
    (s.Interval = 0 → (NeoPattern.ShouldUpdate now s = true ↔ 1 ≤ d)) := by
  subst hnow
  refine ⟨?_, ?_, ?_⟩
  · simp only [NeoPattern.ShouldUpdate, decide_eq_true_eq]
    unfold UINT32_MOD at *
    omega
  · simp only [NeoPattern.ShouldUpdate, NeoPattern.MarkUpdated, decide_eq_false_iff_not]
    unfold UINT32_MOD at *
    omega
  · intro h0
    simp only [NeoPattern.ShouldUpdate, decide_eq_true_eq, h0]
    unfold UINT32_MOD at *
    omega

/-- C5 witness: with Interval 50 and LastUpdate 0, the query is true at
clock 51 and false immediately after MarkUpdated at clock 51. -/
theorem c5_should_update_witness :
    NeoPattern.ShouldUpdate 51 ⟨50, 0, 0, 0, 8, 0, 1⟩ = true ∧
    NeoPattern.ShouldUpdate 51 (NeoPattern.MarkUpdated 51 ⟨50, 0, 0, 0, 8, 0, 1⟩) = false := by
  have h := c5_should_update ⟨50, 0, 0, 0, 8, 0, 1⟩ 51 51 (by decide) (by decide) rfl (by decide)
  exact ⟨h.1.mpr (by decide), h.2.1⟩

/-- C6 counterexample: the claim asserts hueWheel(0) equals the packed
color for (0, 0, 255), pure blue.  In the code the input reversal sends
0 to 255, which lands in the third segment, producing pure red:
Wheel 0 = Color 255 0 0 = 0xFF0000, not 0x0000FF. -/
theorem c6_counterexample :
    NeoPatterns.Wheel 0 ≠ NeoPatterns.Color 0 0 255 ∧
    NeoPatterns.Wheel 0 = NeoPatterns.Color 255 0 0 := by
  decide

set_option maxRecDepth 4000 in
/-- C6 amended: the hue wheel maps its 8-bit input through three linear
segments of 85 positions each after reversing the input, ramping
channels by step 3 per position, and the boundary values are
Wheel 0 = pure red, Wheel 85 = pure green, Wheel 170 = pure blue. -/
theorem c6_amended :
    NeoPatterns.Wheel 0 = NeoPatterns.Color 255 0 0 ∧
    NeoPatterns.Wheel 85 = NeoPatterns.Color 0 255 0 ∧
    NeoPatterns.Wheel 170 = NeoPatterns.Color 0 0 255 ∧
    (∀ pos : Nat, pos < 256 →
      (pos ≤ 85 →
        NeoPatterns.Wheel pos =
          NeoPatterns.Color (3 * (85 - pos)) (255 - 3 * (85 - pos)) 0) ∧
      (85 < pos → pos ≤ 170 →
        NeoPatterns.Wheel pos =
          NeoPatterns.Color 0 (3 * (170 - pos)) (255 - 3 * (170 - pos))) ∧
      (170 < pos →
        NeoPatterns.Wheel pos =
          NeoPatterns.Color (255 - 3 * (255 - pos)) 0 (3 * (255 - pos)))) := by
  refine ⟨by decide, by decide, by decide, by decide⟩

/-- C6 amended, witness: position 40 lies in the first forward segment,
giving the ramp value Color 135 120 0. -/
theorem c6_amended_witness :
    NeoPatterns.Wheel 40 = NeoPatterns.Color 135 120 0 :=
  (c6_amended.2.2.2 40 (by decide)).1 (by decide)

/-! Helper lemmas for the Fade interpolation. -/

lemma red_lt (x : Nat) : NeoPatterns.Red x < 256 := Nat.mod_lt _ (by omega)

lemma green_lt (x : Nat) : NeoPatterns.Green x < 256 := Nat.mod_lt _ (by omega)

lemma blue_lt (x : Nat) : NeoPatterns.Blue x < 256 := Nat.mod_lt _ (by omega)

lemma color_lt (r g b : Nat) : NeoPatterns.Color r g b < 16777216 := by
  unfold NeoPatterns.Color
  omega

lemma color_rebuild (c : Nat) (h : c < 16777216) :
    NeoPatterns.Color (NeoPatterns.Red c) (NeoPatterns.Green c) (NeoPatterns.Blue c) = c := by
  unfold NeoPatterns.Color NeoPatterns.Red NeoPatterns.Green NeoPatterns.Blue
  omega

lemma interp_le (x y T i : Nat) (hx : x < 256) (hy : y < 256) (hT : 1 ≤ T) (hi : i ≤ T) :
    (x * (T - i) + y * i) / T < 256 := by
  have h3 : 255 * (T - i) + 255 * i = 255 * T := by
    rw [← Nat.mul_add, Nat.sub_add_cancel hi]
  have hnum : x * (T - i) + y * i ≤ 255 * T :=
    calc x * (T - i) + y * i
        ≤ 255 * (T - i) + 255 * i :=
          Nat.add_le_add (Nat.mul_le_mul_right _ (by omega)) (Nat.mul_le_mul_right _ (by omega))
      _ = 255 * T := h3
  have hdiv := Nat.div_le_div_right (c := T) hnum
  rw [Nat.mul_comm 255 T, Nat.mul_div_cancel_left _ (by omega : 0 < T)] at hdiv
  omega

lemma interp_zero (x y T : Nat) (hT : 1 ≤ T) : (x * (T - 0) + y * 0) / T = x := by
  rw [Nat.sub_zero, Nat.mul_zero, Nat.add_zero, Nat.mul_comm,
      Nat.mul_div_cancel_left _ (by omega : 0 < T)]

lemma interp_mid (x y k : Nat) (hk : 1 ≤ k) :
    (x * (2 * k - k) + y * k) / (2 * k) = (x + y) / 2 := by
  have h2 : 2 * k - k = k := by omega
  rw [h2, ← Nat.add_mul, Nat.mul_comm (x + y) k, Nat.mul_comm 2 k]
  exact Nat.mul_div_mul_left _ _ (by omega : 0 < k)

lemma fade_update_eq (s : NeoPatternState) (c : NeoPatternsState NeoPatternState)
    (hT : 1 ≤ s.TotalSteps) (hi : s.Index < s.TotalSteps) :
    Fade.Update s c = NeoPatterns.ColorSet (NeoPatterns.Color
      ((NeoPatterns.Red s.Color1 * (s.TotalSteps - s.Index)
        + NeoPatterns.Red s.Color2 * s.Index) / s.TotalSteps)
      ((NeoPatterns.Green s.Color1 * (s.TotalSteps - s.Index)
        + NeoPatterns.Green s.Color2 * s.Index) / s.TotalSteps)
      ((NeoPatterns.Blue s.Color1 * (s.TotalSteps - s.Index)
        + NeoPatterns.Blue s.Color2 * s.Index) / s.TotalSteps)) c := by
  have hr := Nat.mod_eq_of_lt (interp_le (NeoPatterns.Red s.Color1) (NeoPatterns.Red s.Color2)
    s.TotalSteps s.Index (red_lt _) (red_lt _) hT (Nat.le_of_lt hi))
  have hg := Nat.mod_eq_of_lt (interp_le (NeoPatterns.Green s.Color1) (NeoPatterns.Green s.Color2)
    s.TotalSteps s.Index (green_lt _) (green_lt _) hT (Nat.le_of_lt hi))
  have hb := Nat.mod_eq_of_lt (interp_le (NeoPatterns.Blue s.Color1) (NeoPatterns.Blue s.Color2)
    s.TotalSteps s.Index (blue_lt _) (blue_lt _) hT (Nat.le_of_lt hi))
  simp only [Fade.Update]
  rw [hr, hg, hb]

/-- C7 counterexample: at totalSteps = 3 (odd), color1 = 0x000000,
color2 = 0x0000FF and index = totalSteps / 2 = 1, the Fade frame sets
the whole strip to blue channel (0 * 2 + 255 * 1) / 3 = 85, but the
channel-wise integer-truncated midpoint of the blue channels is
(0 + 255) / 2 = 127, so the midpoint part of the claim fails. -/
theorem c7_counterexample :
    (Fade.Update ⟨0, 0, 0, 255, 3, 1, 1⟩ (NeoPatterns.construct NeoPatternState 2)).Buffer =
      List.replicate 2 85 ∧
    (NeoPatterns.Blue 0 + NeoPatterns.Blue 255) / 2 = 127 ∧
    NeoPatterns.Blue 85 ≠ 127 := by
  decide

/-- C7 amended: Fade sets the whole strip (and transmits) to the color
whose channels are (channel1 * (totalSteps - index) + channel2 * index)
/ totalSteps with integer division; at index 0 this is exactly color1;
and at index = totalSteps / 2 it is the channel-wise integer-truncated
midpoint whenever totalSteps is even (for odd totalSteps the midpoint
property fails, see the counterexample). -/
theorem c7_amended (s : NeoPatternState) (c : NeoPatternsState NeoPatternState)
    (hT : 1 ≤ s.TotalSteps) (hi : s.Index < s.TotalSteps) (h1 : s.Color1 < 16777216) :
    (Fade.Update s c).Buffer = List.replicate c.NumPixels (NeoPatterns.Color
      ((NeoPatterns.Red s.Color1 * (s.TotalSteps - s.Index)
        + NeoPatterns.Red s.Color2 * s.Index) / s.TotalSteps)
      ((NeoPatterns.Green s.Color1 * (s.TotalSteps - s.Index)
        + NeoPatterns.Green s.Color2 * s.Index) / s.TotalSteps)
      ((NeoPatterns.Blue s.Color1 * (s.TotalSteps - s.Index)
        + NeoPatterns.Blue s.Color2 * s.Index) / s.TotalSteps)) ∧
    (Fade.Update s c).Shown = (Fade.Update s c).Buffer :: c.Shown ∧
    (s.Index = 0 → (Fade.Update s c).Buffer = List.replicate c.NumPixels s.Color1) ∧
    (∀ k : Nat, s.TotalSteps = 2 * k → s.Index = k →
      (NeoPatterns.Red s.Color1 * (s.TotalSteps - s.Index)
        + NeoPatterns.Red s.Color2 * s.Index) / s.TotalSteps =
        (NeoPatterns.Red s.Color1 + NeoPatterns.Red s.Color2) / 2 ∧
      (NeoPatterns.Green s.Color1 * (s.TotalSteps - s.Index)
        + NeoPatterns.Green s.Color2 * s.Index) / s.TotalSteps =
        (NeoPatterns.Green s.Color1 + NeoPatterns.Green s.Color2) / 2 ∧
      (NeoPatterns.Blue s.Color1 * (s.TotalSteps - s.Index)
        + NeoPatterns.Blue s.Color2 * s.Index) / s.TotalSteps =
        (NeoPatterns.Blue s.Color1 + NeoPatterns.Blue s.Color2) / 2) := by
  have heq := fade_update_eq s c hT hi
  refine ⟨?_, ?_, ?_, ?_⟩
  · rw [heq]
    unfold NeoPatterns.ColorSet NeoPatterns.transmit
    dsimp only
    rw [Nat.mod_eq_of_lt (by unfold UINT32_MOD; exact lt_trans (color_lt _ _ _) (by norm_num))]
  · rw [heq]
    rfl
  · intro h0
    rw [heq, h0]
    unfold NeoPatterns.ColorSet NeoPatterns.transmit
    dsimp only
    rw [interp_zero _ _ _ hT, interp_zero _ _ _ hT, interp_zero _ _ _ hT,
        color_rebuild s.Color1 h1,
        Nat.mod_eq_of_lt (by unfold UINT32_MOD at *; omega)]
  · intro k hTk hik
    have hk : 1 ≤ k := by omega
    refine ⟨?_, ?_, ?_⟩ <;> rw [hTk, hik] <;> exact interp_mid _ _ k hk

/-- C7 amended, witness: fading red 0xFF0000 to green 0x00FF00 over 4
steps, at index 2 both active channels hit the midpoint 127, and the
computed frame is transmitted. -/
theorem c7_amended_witness :
    (Fade.Update ⟨0, 0, 16711680, 65280, 4, 2, 1⟩
        (NeoPatterns.construct NeoPatternState 3)).Shown =
      (Fade.Update ⟨0, 0, 16711680, 65280, 4, 2, 1⟩
        (NeoPatterns.construct NeoPatternState 3)).Buffer
        :: (NeoPatterns.construct NeoPatternState 3).Shown ∧
    (NeoPatterns.Red 16711680 * (4 - 2) + NeoPatterns.Red 65280 * 2) / 4 =
      (NeoPatterns.Red 16711680 + NeoPatterns.Red 65280) / 2 := by
  have h := c7_amended ⟨0, 0, 16711680, 65280, 4, 2, 1⟩ (NeoPatterns.construct NeoPatternState 3)
    (by decide) (by decide) (by decide)
  exact ⟨h.2.1, (h.2.2.2 2 rfl rfl).1⟩

/-- C8: the pattern constructor performs no validation, so a pattern
with totalSteps = 0 is constructed silently (the claim says such a
construction must be rejected or surface an error at construction
time).  The resulting degenerate state then misbehaves at runtime:
every advance pins Index to 0 and fires OnComplete, and Fade's
interpolation divides by zero. -/
theorem c8_zero_totalSteps :
    (NeoPattern.construct 50 0 0 0 1).TotalSteps = 0 ∧
    (NeoPattern.construct 50 0 0 0 1).Index = 0 ∧
    NeoPattern.Increment (NeoPattern.construct 50 0 0 0 1) =
      (NeoPattern.construct 50 0 0 0 1, true) := by
  decide

/-- C9: the spec scenario - a ColorWipe with color 0x00FF00 and
interval 50 started on an 8-pixel controller, driven with clock
readings 100, 200, ..., 800 so that every tick passes the ShouldUpdate
gate.  After the 8 applied updates (the transmission log has exactly 8
entries, one per applied tick) all 8 pixels equal 0x00FF00 and
OnComplete has fired exactly once. -/
theorem c9_colorwipe :
    colorWipeRun.1.Buffer = List.replicate 8 65280 ∧
    colorWipeRun.2 = 1 ∧
    colorWipeRun.1.Shown.length = 8 := by
  decide

/-- C10: IsActive(pattern) compares the argument to ActivePattern by
raw identity with no null check, so in any controller state with no
attached pattern (a fresh controller, or after Stop) the call with a
NULL argument returns true while the no-argument IsActive returns
false. -/
theorem c10_isactive_null :
    (∀ c : NeoPatternsState Nat, c.ActivePattern = none →
      NeoPatterns.IsActivePat c none = true ∧ NeoPatterns.IsActive c = false) ∧
    (∀ c : NeoPatternsState Nat, (NeoPatterns.Stop c).ActivePattern = none) ∧
    (NeoPatterns.construct Nat 8).ActivePattern = none := by
  refine ⟨?_, ?_, rfl⟩
  · intro c h
    constructor
    · simp [NeoPatterns.IsActivePat, h]
    · simp [NeoPatterns.IsActive, h]
  · intro c
    rfl

/-- C10 witness: the fresh 8-pixel controller answers true to
IsActive(NULL) and false to IsActive(). -/
theorem c10_isactive_null_witness :
    NeoPatterns.IsActivePat (NeoPatterns.construct Nat 8) none = true ∧
    NeoPatterns.IsActive (NeoPatterns.construct Nat 8) = false :=
  c10_isactive_null.1 (NeoPatterns.construct Nat 8) rfl
